import Mathlib

/-!
Verification of the data-classification and aggregation pipeline of the
Disaster Dollar Database dashboard.

The development shallowly embeds the relevant TypeScript code:

* heterogeneous CSV funding fields (`string | number | null | undefined`)
  become the inductive `JSVal`, and the repeated coercion pattern
  `typeof v === 'number' ? v : typeof v === 'string' ? parseFloat(v) || 0 : 0`
  becomes `normalizeVal` (the name `normalize` itself is taken by Mathlib);
* JavaScript `Date` values are modelled at day granularity as ordinary
  integers (a Julian day number); `new Date(y, monthIndex, day)` becomes
  `jsDate`, and `Date.prototype.getFullYear` becomes `getFullYear`.
  Date strings that fail to parse are not modelled: an `incident_start`
  field is either absent (`none`, the falsy empty string) or parses to a
  day number (`some t`);
* numbers are exact rationals (`ℚ`); the floating-point representation,
  `NaN` and `Infinity` are outside the model.

Each embedded definition is translated from the component named in its
doc string.
-/

/-- A JavaScript value as it may appear in a parsed CSV funding field:
a number, a string, `null`, or `undefined`. -/
inductive JSVal where
  | num (q : ℚ)
  | str (s : String)
  | null
  | undef
deriving DecidableEq, Repr

/-- Numeric value of a list of decimal digit characters (most significant
first), as accumulated by a left-to-right scan. -/
def digitsVal (ds : List Char) : ℕ :=
  ds.foldl (fun a c => a * 10 + (c.toNat - Char.toNat '0')) 0

/-- Model of JavaScript `parseFloat`: skip leading whitespace, read an
optional sign, then the longest prefix shaped `digits [. digits] [e|E sign
digits]`; `none` models the `NaN` result when no digits are found.
Trailing garbage is ignored, as in JavaScript. -/
def parseFloat (s : String) : Option ℚ :=
  let cs := s.data.dropWhile fun c => c = ' ' || c = '\t' || c = '\n' || c = '\r'
  let sgn : ℚ := match cs with
    | '-' :: _ => -1
    | _ => 1
  let cs := match cs with
    | '-' :: t => t
    | '+' :: t => t
    | _ => cs
  let intDs := cs.takeWhile Char.isDigit
  let cs := cs.dropWhile Char.isDigit
  let fracDs := match cs with
    | '.' :: t => t.takeWhile Char.isDigit
    | _ => []
  let cs := match cs with
    | '.' :: t => t.dropWhile Char.isDigit
    | _ => cs
  if intDs.isEmpty && fracDs.isEmpty then none
  else
    let mant : ℚ := (digitsVal intDs : ℚ) + (digitsVal fracDs : ℚ) / (10 : ℚ) ^ fracDs.length
    let expVal : ℤ :=
      match cs with
      | 'e' :: t | 'E' :: t =>
        let esgn : ℤ := match t with
          | '-' :: _ => -1
          | _ => 1
        let t := match t with
          | '-' :: t2 => t2
          | '+' :: t2 => t2
          | _ => t
        let eds := t.takeWhile Char.isDigit
        if eds.isEmpty then 0 else esgn * (digitsVal eds : ℤ)
      | _ => 0
    some (sgn * mant * (10 : ℚ) ^ expVal)

/-- The funding-field coercion used throughout the components
(`DisasterDataDownloader.tsx`, `DisasterMap.tsx`, `FactSheetDisplay.tsx`):
`typeof v === 'number' ? v : (typeof v === 'string' ? parseFloat(v) || 0 : 0)`.
`parseFloat(v) || 0` maps the `NaN` parse result (and a zero parse) to `0`. -/
def normalizeVal : JSVal → ℚ
  | .num q => q
  | .str s =>
    match parseFloat s with
    | some q => q
    | none => 0
  | .null => 0
  | .undef => 0

/-- Julian day number of the proleptic Gregorian date `(y, m, d)` with
`m ∈ 1..12`; linear in `d`, so day `0` or negative days denote days before
the first of the month, matching JavaScript `Date` day overflow. -/
def daysFromCivil (y m d : ℤ) : ℤ :=
  let a := (14 - m).fdiv 12
  let y1 := y + 4800 - a
  let m1 := m + 12 * a - 3
  d + (153 * m1 + 2).fdiv 5 + 365 * y1 + y1.fdiv 4 - y1.fdiv 100 + y1.fdiv 400 - 32045

/-- Inverse of `daysFromCivil`: the `(year, month, day)` of a Julian day
number in the proleptic Gregorian calendar. -/
def civilFromDays (jdn : ℤ) : ℤ × ℤ × ℤ :=
  let z := jdn - 1721120
  let era := z.fdiv 146097
  let doe := z - era * 146097
  let yoe := (doe - doe.fdiv 1460 + doe.fdiv 36524 - doe.fdiv 146096).fdiv 365
  let y := yoe + era * 400
  let doy := doe - (365 * yoe + yoe.fdiv 4 - yoe.fdiv 100)
  let mp := (5 * doy + 2).fdiv 153
  let d := doy - (153 * mp + 2).fdiv 5 + 1
  let m := if mp < 10 then mp + 3 else mp - 9
  (if m ≤ 2 then y + 1 else y, m, d)

/-- `Date.prototype.getFullYear` on a day-granularity time value. -/
def getFullYear (t : ℤ) : ℤ := (civilFromDays t).1

/-- `new Date(y, monthIndex, day)` at day granularity: the month index is
zero-based and normalized (index 12 is January of the following year). -/
def jsDate (y mIdx d : ℤ) : ℤ :=
  let ym := y * 12 + mIdx
  daysFromCivil (ym.fdiv 12) (ym.emod 12 + 1) d

/-- One CSV row of the disaster dollar database, with the fields read by the
components under verification (`DisasterData` interfaces of
`DisasterDataDownloader.tsx`, `DisasterMap.tsx`, `FactSheetDisplay.tsx`).
Each FRN tranche's grantee slots 1..9 are listed in slot order. -/
structure DisasterData where
  incident_start : Option ℤ
  incident_type : String
  state : String
  event : String
  ihp_total : JSVal
  pa_total : JSVal
  cdbg_dr_allocation : JSVal
  sba_total_approved_loan_amount : JSVal
  cdbg_dr_total : JSVal
  incident_number : ℤ
  ihp_applicants : Option ℚ
  ihp_average_award : Option ℚ
  frn1_date : Option String
  frn2_date : Option String
  frn3_date : Option String
  frn4_date : Option String
  frn1_grantees : List (Option String × Option ℚ)
  frn2_grantees : List (Option String × Option ℚ)
  frn3_grantees : List (Option String × Option ℚ)
  frn4_grantees : List (Option String × Option ℚ)
deriving DecidableEq, Repr

/-- A row with every field absent or blank, used as a base for test rows. -/
def emptyRow : DisasterData where
  incident_start := none
  incident_type := ""
  state := ""
  event := ""
  ihp_total := .null
  pa_total := .null
  cdbg_dr_allocation := .null
  sba_total_approved_loan_amount := .null
  cdbg_dr_total := .null
  incident_number := 0
  ihp_applicants := none
  ihp_average_award := none
  frn1_date := none
  frn2_date := none
  frn3_date := none
  frn4_date := none
  frn1_grantees := []
  frn2_grantees := []
  frn3_grantees := []
  frn4_grantees := []

/-- The user-selected view state of `DisasterDataDownloaderJan25`
(`DisasterDataDownloader.tsx`): date range, region selection, the
include-territories flag, disaster-type selection and funding-source
selection. -/
structure FilterCriteria where
  startYear : ℤ
  startMonth : ℤ
  endYear : ℤ
  endMonth : ℤ
  selectedStates : List String
  includesTerritories : Bool
  selectedDisasterTypes : List String
  selectedFundingTypes : List String
deriving DecidableEq, Repr

/-- The territory list of `DisasterDataDownloaderJan25`
(`DisasterDataDownloader.tsx` line 400). -/
def territories : List String := ["PR", "GU", "VI", "MP", "AS", "FM", "MH", "PW"]

/-- The date predicate of the `filteredData` memo of
`DisasterDataDownloaderJan25`: the incident date lies between
`new Date(startYear, startMonth - 1, 1)` and `new Date(endYear, endMonth, 0)`
inclusive. -/
def dateMatchJan25 (c : FilterCriteria) (row : DisasterData) : Bool :=
  match row.incident_start with
  | none => false
  | some t =>
    let startDate := jsDate c.startYear (c.startMonth - 1) 1
    let endDate := jsDate c.endYear c.endMonth 0
    decide (startDate ≤ t) && decide (t ≤ endDate)

/-- The region predicate (`stateMatch`) of `DisasterDataDownloaderJan25`
(`DisasterDataDownloader.tsx` lines 445-453): an empty selection matches
every record; otherwise territories match when the include-territories flag
is set, and otherwise the record's state must be selected. -/
def stateMatchJan25 (selectedStates : List String) (includesTerritories : Bool)
    (st : String) : Bool :=
  if selectedStates.length = 0 then true
  else if territories.contains st && includesTerritories then true
  else selectedStates.contains st

/-- The disaster-type predicate (`typeMatch`) of
`DisasterDataDownloaderJan25` (line 455). -/
def typeMatchJan25 (selectedTypes : List String) (ty : String) : Bool :=
  decide (selectedTypes.length = 0) || selectedTypes.contains ty

/-- The funding predicate (`fundingMatch`) of `DisasterDataDownloaderJan25`
(`DisasterDataDownloader.tsx` lines 457-486): with a non-empty selection,
start from `false` and flip to `true` at the first selected source whose
normalized amount is positive; with an empty selection stay `true`. -/
def fundingMatchJan25 (sel : List String) (row : DisasterData) : Bool :=
  if sel.length > 0 then
    let fm := false
    let fm := if sel.contains "ihp" then
        (if 0 < normalizeVal row.ihp_total then true else fm) else fm
    let fm := if !fm && sel.contains "pa" then
        (if 0 < normalizeVal row.pa_total then true else fm) else fm
    let fm := if !fm && sel.contains "cdbg_dr_allocation" then
        (if 0 < normalizeVal row.cdbg_dr_allocation then true else fm) else fm
    let fm := if !fm && sel.contains "sba_total_approved_loan_amount" then
        (if 0 < normalizeVal row.sba_total_approved_loan_amount then true else fm) else fm
    fm
  else true

/-- The row predicate of the `filteredData` memo of
`DisasterDataDownloaderJan25` (`DisasterDataDownloader.tsx` lines 436-488):
rows without an incident start are dropped, then the date, region, type and
funding predicates are conjoined. -/
def rowMatchesJan25 (c : FilterCriteria) (row : DisasterData) : Bool :=
  match row.incident_start with
  | none => false
  | some _ =>
    dateMatchJan25 c row
      && stateMatchJan25 c.selectedStates c.includesTerritories row.state
      && typeMatchJan25 c.selectedDisasterTypes row.incident_type
      && fundingMatchJan25 c.selectedFundingTypes row

/-- The `filteredData` memo of `DisasterDataDownloaderJan25`
(`DisasterDataDownloader.tsx` lines 433-490), after loading. -/
def filteredDataJan25 (c : FilterCriteria) (rows : List DisasterData) :
    List DisasterData :=
  rows.filter (rowMatchesJan25 c)

/-- Per-region rollup of `DisasterMap.tsx` (`StateData` interface): event
count, summed funding, and per-incident-type count and funding sub-maps
(insertion-ordered association lists model the JS objects). -/
structure StateData where
  count : ℕ
  funding : ℚ
  types : List (String × ℕ)
  typesFunding : List (String × ℚ)
deriving DecidableEq, Repr

/-- The empty aggregate a new state key is initialised with
(`DisasterMap.tsx` lines 354-361). -/
def emptyStateData : StateData :=
  { count := 0, funding := 0, types := [], typesFunding := [] }

/-- Insertion-ordered update of a JS-object-as-map: apply `f` to the
existing entry, or to `init` when the key is new (mirrors
`if (!obj[k]) obj[k] = init; obj[k] = f(obj[k])`). -/
def updateAssoc {α : Type} (m : List (String × α)) (k : String) (f : α → α)
    (init : α) : List (String × α) :=
  if m.any fun p => p.1 = k then
    m.map fun p => if p.1 = k then (p.1, f p.2) else p
  else m ++ [(k, f init)]

/-- Truthiness of `stateNames[state]`: the lookup must find a non-empty
name (`DisasterMap.tsx` line 322, `if (!stateNames[state])`). -/
def truthyLookup (m : List (String × String)) (k : String) : Bool :=
  match m.lookup k with
  | some v => !v.isEmpty
  | none => false

/-- Funding contributed by one record under the selected funding types of
`DisasterMap.tsx` (lines 366-387: keys `ihp`, `pa`, `cdbg_dr`; the CDBG
amount is read from `cdbg_dr_total` in this component). -/
def mapRecordFunding (sel : List String) (item : DisasterData) : ℚ :=
  let ihpTotal := if sel.contains "ihp" then normalizeVal item.ihp_total else 0
  let paTotal := if sel.contains "pa" then normalizeVal item.pa_total else 0
  let cdbgDrTotal := if sel.contains "cdbg_dr" then normalizeVal item.cdbg_dr_total else 0
  ihpTotal + paTotal + cdbgDrTotal

/-- The per-record aggregate update of `getStateData`
(`DisasterMap.tsx` lines 354-404). -/
def bumpState (sel : List String) (item : DisasterData) (sd : StateData) : StateData :=
  let totalFunding := mapRecordFunding sel item
  let sd := { sd with count := sd.count + 1, funding := sd.funding + totalFunding }
  if item.incident_type ≠ "" then
    { sd with
      types := updateAssoc sd.types item.incident_type (· + 1) 0,
      typesFunding := updateAssoc sd.typesFunding item.incident_type (· + totalFunding) 0 }
  else sd

/-- One step of the `forEach` of `getStateData` (`DisasterMap.tsx` lines
317-405): records with a falsy state are skipped; records whose state is
not a truthy `stateNames` entry only update the diagnostic
`territoriesData` map; all others update the state aggregate. -/
def getStateDataStep (stateNames : List (String × String)) (sel : List String)
    (acc : List (String × StateData) × List (String × ℚ)) (item : DisasterData) :
    List (String × StateData) × List (String × ℚ) :=
  if item.state = "" then acc
  else if !truthyLookup stateNames item.state then
    (acc.1, updateAssoc acc.2 item.state (· + mapRecordFunding sel item) 0)
  else
    (updateAssoc acc.1 item.state (bumpState sel item) emptyStateData, acc.2)

/-- `getStateData` of `DisasterMap.tsx` (lines 307-414): the per-state
aggregate map; the territories map is tracked but only logged, so the
function returns the first component of the fold. -/
def getStateData (stateNames : List (String × String)) (sel : List String)
    (filteredData : List DisasterData) : List (String × StateData) :=
  (filteredData.foldl (getStateDataStep stateNames sel) ([], [])).1

/-- The fixed default threshold ladder returned when no state has positive
funding (`DisasterMap.tsx` line 270). -/
def defaultThresholds : List ℚ :=
  [0, 100, 10000, 100000, 1000000, 10000000, 100000000, 1000000000, 5000000000]

/-- Rounding a positive break value up to a power-of-ten-aligned "nice"
number (`DisasterMap.tsx` lines 298-299):
`Math.ceil(t / magnitude) * magnitude` with
`magnitude = 10 ** Math.floor(Math.log10(t))`. -/
def roundUpNice (t : ℚ) : ℚ :=
  let m : ℚ := (10 : ℚ) ^ Int.log 10 t
  (⌈t / m⌉ : ℚ) * m

/-- `calculateDynamicThresholds` of `DisasterMap.tsx` (lines 266-304):
positive per-state funding values drive a proportional ladder of the
maximum, each interior entry rounded up to a nice number, the first entry
`0` and the last the exact maximum; without positive values the fixed
default ladder is returned. -/
def calculateDynamicThresholds (stateData : List (String × StateData)) : List ℚ :=
  let fundingValues := (stateData.map fun p => p.2.funding).filter fun f => 0 < f
  match fundingValues with
  | [] => defaultThresholds
  | f :: fs =>
    let mx := fs.foldl max f
    [0,
     roundUpNice (mx * (1 / 10000)),
     roundUpNice (mx * (1 / 1000)),
     roundUpNice (mx * (1 / 100)),
     roundUpNice (mx * (5 / 100)),
     roundUpNice (mx * (1 / 10)),
     roundUpNice (mx * (25 / 100)),
     roundUpNice (mx * (5 / 10)),
     mx]

/-- Helper for `jsSetDedup`: drop elements already seen. -/
def jsSetDedupAux (seen : List ℚ) : List ℚ → List ℚ
  | [] => []
  | x :: xs => if x ∈ seen then jsSetDedupAux seen xs else x :: jsSetDedupAux (x :: seen) xs

/-- `[...new Set(arr)]`: deduplication keeping first occurrences. -/
def jsSetDedup (l : List ℚ) : List ℚ := jsSetDedupAux [] l

/-- The dedup-and-ascending-sort applied to the computed thresholds in the
map component's effect (`DisasterMap.tsx` line 422):
`[...new Set(newThresholds)].sort((a, b) => a - b)`. -/
def uniqueThresholds (l : List ℚ) : List ℚ :=
  (jsSetDedup l).insertionSort (· ≤ ·)

/-- JavaScript `Math.round`: round half toward positive infinity. -/
def jsRound (x : ℚ) : ℤ := ⌊x + 1 / 2⌋

/-- JavaScript `String.prototype.includes` for a non-empty pattern. -/
def strIncludes (s pat : String) : Bool := (s.splitOn pat).length != 1

/-- Truthiness-and-positivity test `x && x > 0` on an optional number. -/
def optTruthyPos : Option ℚ → Bool
  | some a => decide (0 < a)
  | none => false

/-- The type-based national-average grant estimation inside `eventStats`
(`FactSheetDisplay.tsx` lines 170-191): a fixed table keyed by substrings
of the lower-cased incident type. -/
def estimatedAverageGrant (incidentType : String) : ℚ :=
  if incidentType ≠ "" then
    let d := incidentType.toLower
    if strIncludes d "hurricane" || strIncludes d "typhoon" then 5372
    else if strIncludes d "flood" then 4467
    else if strIncludes d "fire" || strIncludes d "wildfire" then 6198
    else if strIncludes d "tornado" then 3975
    else 4103
  else 4103

/-- The summary returned by the `eventStats` memo of
`FactSheetDisplay.tsx`. -/
structure EventStats where
  avgAssistance : ℚ
  totalApplicants : ℚ
  similarDisastersCount : ℕ
deriving DecidableEq, Repr

/-- The `eventStats` memo of `FactSheetDisplay.tsx` (lines 143-216):
prefer the explicit `ihp_average_award` when present and positive (then
derive the applicant count from it when absent); else divide IHP total by
a known applicant count; else fall back to the type-based estimate. -/
def eventStats (primaryEvent : DisasterData)
    (sameTypeRecentEvents : List DisasterData) : EventStats :=
  let totalIhpAmount := normalizeVal primaryEvent.ihp_total
  let applicants : ℚ := match primaryEvent.ihp_applicants with
    | some a => a
    | none => 0
  let result : ℚ × ℚ :=
    if optTruthyPos primaryEvent.ihp_average_award then
      let avgAssistance := primaryEvent.ihp_average_award.getD 0
      if applicants = 0 ∧ 0 < totalIhpAmount ∧ 0 < avgAssistance then
        (avgAssistance, (jsRound (totalIhpAmount / avgAssistance) : ℚ))
      else (avgAssistance, applicants)
    else if 0 < applicants ∧ 0 < totalIhpAmount then
      (totalIhpAmount / applicants, applicants)
    else if applicants = 0 ∧ 0 < totalIhpAmount then
      let grant := estimatedAverageGrant primaryEvent.incident_type
      (grant, (jsRound (totalIhpAmount / grant) : ℚ))
    else (0, applicants)
  { avgAssistance := result.1
    totalApplicants := result.2
    similarDisastersCount := sameTypeRecentEvents.length }

/-- The per-record funding breakdown `calculateFunding` shared by
`federalSpendStats` and `majorStormsData` (`FactSheetDisplay.tsx` lines
344-365 and 492-516; the latter's `isNaN` guard is vacuous in the rational
model). `total` includes the SBA amount only when the `useSBAData` prop is
set. -/
structure FundingParts where
  ihpTotal : ℚ
  paTotal : ℚ
  cdbgDrAllocation : ℚ
  sbaTotal : ℚ
  total : ℚ
deriving DecidableEq, Repr

/-- See `FundingParts`. -/
def calculateFunding (useSBAData : Bool) (item : DisasterData) : FundingParts :=
  let ihpTotal := normalizeVal item.ihp_total
  let paTotal := normalizeVal item.pa_total
  let cdbgDrAllocation := normalizeVal item.cdbg_dr_allocation
  let sbaTotal := normalizeVal item.sba_total_approved_loan_amount
  { ihpTotal, paTotal, cdbgDrAllocation, sbaTotal,
    total := ihpTotal + paTotal + cdbgDrAllocation + (if useSBAData then sbaTotal else 0) }

/-- The result of the `federalSpendStats` memo of `FactSheetDisplay.tsx`. -/
structure SpendStats where
  totalFunding : ℚ
  annualAverage : ℚ
  yearsSpan : ℚ
  earliestYear : ℤ
  latestYear : ℤ
deriving DecidableEq, Repr

/-- The `federalSpendStats` memo of `FactSheetDisplay.tsx` (lines 342-487):
sum funding over the state's events dated within ten years before "now"
(passed here as the civil date `nowY/nowM/nowD`) and divide by the fixed
`yearsSpan = 10`. -/
def federalSpendStats (nowY nowM nowD : ℤ) (useSBAData : Bool)
    (stateEvents : List DisasterData) : SpendStats :=
  let dates := stateEvents.filterMap fun e => e.incident_start
  match dates with
  | [] =>
    { totalFunding := 0, annualAverage := 0, yearsSpan := 0,
      earliestYear := nowY, latestYear := nowY }
  | d :: ds =>
    let earliestYear := getFullYear (ds.foldl min d)
    let latestYear := getFullYear (ds.foldl max d)
    let tenYearsAgo := daysFromCivil (nowY - 10) nowM nowD
    let filteredEvents := stateEvents.filter fun e =>
      match e.incident_start with
      | some t => decide (tenYearsAgo ≤ t)
      | none => false
    let totalFunding := (filteredEvents.map fun e => (calculateFunding useSBAData e).total).sum
    let effectiveEarliestYear := max earliestYear (latestYear - 10)
    { totalFunding
      annualAverage := totalFunding / 10
      yearsSpan := 10
      earliestYear := effectiveEarliestYear
      latestYear }

/-- A state event paired with its computed funding breakdown
(`eventsWithFunding` in `majorStormsData`, `FactSheetDisplay.tsx` lines
522-540; the debug-only `formattedDate` is not modelled). -/
structure EventWithFunding where
  ev : DisasterData
  calculatedFunding : FundingParts
deriving DecidableEq, Repr

/-- The descending-by-total-funding comparator
`(a, b) => b.calculatedFunding.totalFunding - a.calculatedFunding.totalFunding`. -/
def fundingDescRel (a b : EventWithFunding) : Prop :=
  b.calculatedFunding.total ≤ a.calculatedFunding.total

instance : DecidableRel fundingDescRel := fun _ _ =>
  inferInstanceAs (Decidable (_ ≤ _))

instance : IsTotal EventWithFunding fundingDescRel :=
  ⟨fun a b => le_total b.calculatedFunding.total a.calculatedFunding.total⟩

instance : IsTrans EventWithFunding fundingDescRel :=
  ⟨fun _ _ _ h₁ h₂ => le_trans h₂ h₁⟩

/-- One bar of the major-storms chart (`majorEventsForChart`,
`FactSheetDisplay.tsx` lines 637-651). -/
structure ChartEntry where
  name : String
  incidentNumber : ℤ
  ihpTotal : ℚ
  paTotal : ℚ
  cdbgDrTotal : ℚ
  sbaTotal : ℚ
  totalFunding : ℚ
  date : Option ℤ
deriving DecidableEq, Repr

/-- All intermediate stages of the `majorStormsData` memo of
`FactSheetDisplay.tsx` (lines 490-658), exposed as fields so that each
stage of the source's `let` sequence can be referred to. -/
structure MajorStormsResult where
  eventsWithFunding : List EventWithFunding
  yearsToConsider : ℤ
  cutoffDate : ℤ
  recentEventsInWindow : List EventWithFunding
  recentEvents : List EventWithFunding
  sortedEvents : List EventWithFunding
  displayCount : ℕ
  topEvents : List EventWithFunding
  data : List ChartEntry
  dateRange : String
deriving DecidableEq, Repr

/-- `eventsWithFunding` of `majorStormsData` (`FactSheetDisplay.tsx` lines
522-540): every state event paired with its funding breakdown. -/
def msEventsWithFunding (useSBAData : Bool) (stateEvents : List DisasterData) :
    List EventWithFunding :=
  stateEvents.map fun item =>
    { ev := item, calculatedFunding := calculateFunding useSBAData item }

/-- `allDates` of `majorStormsData` (lines 544-547): the dated events'
start dates sorted ascending. -/
def msAllDates (useSBAData : Bool) (stateEvents : List DisasterData) : List ℤ :=
  ((msEventsWithFunding useSBAData stateEvents).filterMap
    fun i => i.ev.incident_start).insertionSort (· ≤ ·)

/-- `yearsToConsider` of `majorStormsData` (lines 551-568): a 20-, 15- or
at-least-10-year window depending on the year spread of the dated events. -/
def msYearsToConsider (useSBAData : Bool) (stateEvents : List DisasterData) : ℤ :=
  match msAllDates useSBAData stateEvents with
  | [] => 10
  | d :: ds =>
    let yearsDiff := getFullYear (ds.getLastD d) - getFullYear d
    if 20 ≤ yearsDiff then 20
    else if 15 ≤ yearsDiff then 15
    else max 10 yearsDiff

/-- `cutoffDate` of `majorStormsData` (lines 570-571): "now" minus the
chosen window. -/
def msCutoffDate (nowY nowM nowD : ℤ) (useSBAData : Bool)
    (stateEvents : List DisasterData) : ℤ :=
  daysFromCivil (nowY - msYearsToConsider useSBAData stateEvents) nowM nowD

/-- The window predicate of `majorStormsData` (lines 578-593): dated and
not before the cutoff. -/
def msIsRecent (cutoffDate : ℤ) (item : EventWithFunding) : Bool :=
  match item.ev.incident_start with
  | some t => decide (cutoffDate ≤ t)
  | none => false

/-- `recentEvents` of `majorStormsData` before the backfill (lines
578-593). -/
def msRecentInWindow (nowY nowM nowD : ℤ) (useSBAData : Bool)
    (stateEvents : List DisasterData) : List EventWithFunding :=
  (msEventsWithFunding useSBAData stateEvents).filter
    (msIsRecent (msCutoffDate nowY nowM nowD useSBAData stateEvents))

/-- `recentEvents` of `majorStormsData` after the backfill step (lines
596-613): when fewer than 5 events in the window are funded and the state
has more than 10 events, append up to 10 of the highest-funded events that
are outside the window but funded. -/
def msRecentEvents (nowY nowM nowD : ℤ) (useSBAData : Bool)
    (stateEvents : List DisasterData) : List EventWithFunding :=
  let recentInWindow := msRecentInWindow nowY nowM nowD useSBAData stateEvents
  let eventsWithNonZeroFunding :=
    recentInWindow.filter fun i => decide (0 < i.calculatedFunding.total)
  if eventsWithNonZeroFunding.length < 5 ∧ 10 < stateEvents.length then
    let additionalEvents :=
      (((msEventsWithFunding useSBAData stateEvents).filter fun i =>
          !msIsRecent (msCutoffDate nowY nowM nowD useSBAData stateEvents) i
            && decide (0 < i.calculatedFunding.total)).insertionSort
        fundingDescRel).take 10
    recentInWindow ++ additionalEvents
  else recentInWindow

/-- `sortedEvents` of `majorStormsData` (lines 616-618): descending by
total funding. -/
def msSortedEvents (nowY nowM nowD : ℤ) (useSBAData : Bool)
    (stateEvents : List DisasterData) : List EventWithFunding :=
  (msRecentEvents nowY nowM nowD useSBAData stateEvents).insertionSort fundingDescRel

/-- `displayCount` of `majorStormsData` (lines 630-631). -/
def msDisplayCount (nowY nowM nowD : ℤ) (useSBAData : Bool)
    (stateEvents : List DisasterData) : ℕ :=
  let sortedEvents := msSortedEvents nowY nowM nowD useSBAData stateEvents
  if sortedEvents.length ≤ 5 then sortedEvents.length
  else if sortedEvents.length ≤ 15 then min sortedEvents.length 15
  else 20

/-- `topEvents` of `majorStormsData` (line 634). -/
def msTopEvents (nowY nowM nowD : ℤ) (useSBAData : Bool)
    (stateEvents : List DisasterData) : List EventWithFunding :=
  (msSortedEvents nowY nowM nowD useSBAData stateEvents).take
    (msDisplayCount nowY nowM nowD useSBAData stateEvents)

/-- The per-event chart mapping of `majorStormsData` (lines 637-651). -/
def msChartEntry (item : EventWithFunding) : ChartEntry :=
  let yearStr := match item.ev.incident_start with
    | some t => toString (getFullYear t)
    | none => "Unknown"
  { name := yearStr ++ " " ++ (if item.ev.event ≠ "" then item.ev.event else "Unnamed Event")
    incidentNumber := item.ev.incident_number
    ihpTotal := item.calculatedFunding.ihpTotal
    paTotal := item.calculatedFunding.paTotal
    cdbgDrTotal := item.calculatedFunding.cdbgDrAllocation
    sbaTotal := item.calculatedFunding.sbaTotal
    totalFunding := item.calculatedFunding.total
    date := item.ev.incident_start }

/-- The `majorStormsData` memo of `FactSheetDisplay.tsx` (lines 490-658),
assembled from the staged definitions above. -/
def majorStormsData (nowY nowM nowD : ℤ) (useSBAData : Bool)
    (stateEvents : List DisasterData) : MajorStormsResult :=
  { eventsWithFunding := msEventsWithFunding useSBAData stateEvents
    yearsToConsider := msYearsToConsider useSBAData stateEvents
    cutoffDate := msCutoffDate nowY nowM nowD useSBAData stateEvents
    recentEventsInWindow := msRecentInWindow nowY nowM nowD useSBAData stateEvents
    recentEvents := msRecentEvents nowY nowM nowD useSBAData stateEvents
    sortedEvents := msSortedEvents nowY nowM nowD useSBAData stateEvents
    displayCount := msDisplayCount nowY nowM nowD useSBAData stateEvents
    topEvents := msTopEvents nowY nowM nowD useSBAData stateEvents
    data := (msTopEvents nowY nowM nowD useSBAData stateEvents).map msChartEntry
    dateRange :=
      toString (getFullYear (msCutoffDate nowY nowM nowD useSBAData stateEvents))
        ++ "-" ++ toString nowY }

/-- One consolidated CDBG-DR recipient (`getCDBGRecipients`,
`FactSheetDisplay.tsx` lines 895-953). -/
structure CDBGRecipient where
  name : String
  totalAmount : ℚ
  dates : List String
deriving DecidableEq, Repr

/-- The descending-by-total-amount comparator
`(a, b) => b.totalAmount - a.totalAmount`. -/
def amountDescRel (a b : CDBGRecipient) : Prop := b.totalAmount ≤ a.totalAmount

instance : DecidableRel amountDescRel := fun _ _ =>
  inferInstanceAs (Decidable (_ ≤ _))

instance : IsTotal CDBGRecipient amountDescRel :=
  ⟨fun a b => le_total b.totalAmount a.totalAmount⟩

instance : IsTrans CDBGRecipient amountDescRel :=
  ⟨fun _ _ _ h₁ h₂ => le_trans h₂ h₁⟩

/-- One grantee slot of `addRecipientsFromFRN` (`FactSheetDisplay.tsx`
lines 905-932): a truthy name with a truthy positive amount adds the
amount under the trimmed name (and records the tranche date when truthy
and not `"Unknown"`); every other slot is skipped. -/
def addRecipientSlot (frnDate : Option String)
    (acc : List (String × ℚ × List String)) (slot : Option String × Option ℚ) :
    List (String × ℚ × List String) :=
  match slot with
  | (some name, some amount) =>
    if name ≠ "" ∧ amount ≠ 0 ∧ 0 < amount then
      let trimmedName := name.trim
      let dateOk : Option String := match frnDate with
        | some dt => if dt ≠ "" ∧ dt ≠ "Unknown" then some dt else none
        | none => none
      if acc.any fun p => p.1 = trimmedName then
        acc.map fun p =>
          if p.1 = trimmedName then
            (p.1, p.2.1 + amount,
             match dateOk with
             | some dt => if p.2.2.contains dt then p.2.2 else p.2.2 ++ [dt]
             | none => p.2.2)
          else p
      else
        acc ++ [(trimmedName, amount,
          match dateOk with
          | some dt => [dt]
          | none => [])]
    else acc
  | _ => acc

/-- The `recipientMap` of `getCDBGRecipients` after processing all four
FRN tranches (`FactSheetDisplay.tsx` lines 902-938), as an
insertion-ordered association list. -/
def cdbgMap (event : DisasterData) : List (String × ℚ × List String) :=
  let m := event.frn1_grantees.foldl (addRecipientSlot event.frn1_date) []
  let m := event.frn2_grantees.foldl (addRecipientSlot event.frn2_date) m
  let m := event.frn3_grantees.foldl (addRecipientSlot event.frn3_date) m
  event.frn4_grantees.foldl (addRecipientSlot event.frn4_date) m

/-- The per-recipient consolidation step of `getCDBGRecipients`
(`FactSheetDisplay.tsx` lines 941-950): name, total, and chronologically
sorted dates. -/
def cdbgToRecipient (dateValue : String → ℤ) (p : String × ℚ × List String) :
    CDBGRecipient :=
  { name := p.1
    totalAmount := p.2.1
    dates := p.2.2.insertionSort fun a b => dateValue a ≤ dateValue b }

/-- `getCDBGRecipients` of `FactSheetDisplay.tsx` (lines 895-953).  The
chronological sort of each recipient's date strings parses them with
`new Date`; the parse is abstracted as the `dateValue` parameter. -/
def getCDBGRecipients (dateValue : String → ℤ) (event : DisasterData) :
    List CDBGRecipient :=
  let consolidatedRecipients := (cdbgMap event).map (cdbgToRecipient dateValue)
  consolidatedRecipients.insertionSort amountDescRel

/-! ## Concrete test fixtures -/

/-- Criteria with nothing selected: full default date range, no states, no
types, no funding sources. -/
def cEmpty : FilterCriteria :=
  { startYear := 2015, startMonth := 1, endYear := 2025, endMonth := 10,
    selectedStates := [], includesTerritories := false,
    selectedDisasterTypes := [], selectedFundingTypes := [] }

/-- A Texas fire record dated 2020-06-15 with positive IHP funding. -/
def rowTX : DisasterData :=
  { emptyRow with
      state := "TX"
      incident_type := "Fire"
      incident_start := some (daysFromCivil 2020 6 15)
      ihp_total := .num 100 }

/-- A Puerto Rico record dated 2020-06-15 with positive IHP funding. -/
def rowPR : DisasterData :=
  { rowTX with state := "PR" }

/-! ## Funding-match and filter lemmas -/

/-- With a non-empty selection, `fundingMatch` is the disjunction, over the
four known funding keys, of "key selected and its normalized amount is
positive". -/
theorem fundingMatchJan25_iff (sel : List String) (row : DisasterData)
    (h : sel ≠ []) :
    fundingMatchJan25 sel row = true ↔
      ("ihp" ∈ sel ∧ 0 < normalizeVal row.ihp_total) ∨
      ("pa" ∈ sel ∧ 0 < normalizeVal row.pa_total) ∨
      ("cdbg_dr_allocation" ∈ sel ∧ 0 < normalizeVal row.cdbg_dr_allocation) ∨
      ("sba_total_approved_loan_amount" ∈ sel ∧
        0 < normalizeVal row.sba_total_approved_loan_amount) := by
  have hlen : 0 < sel.length := List.length_pos.mpr h
  simp only [fundingMatchJan25, if_pos hlen]
  split_ifs <;> simp_all [List.elem_iff]

/-- With an empty selection, `fundingMatch` stays `true`. -/
theorem fundingMatchJan25_nil (row : DisasterData) :
    fundingMatchJan25 [] row = true := rfl

/-- The row predicate with an empty funding selection reduces to the
conjunction of the date, region and type predicates. -/
theorem rowMatchesJan25_empty_funding (c : FilterCriteria) (row : DisasterData)
    (h : c.selectedFundingTypes = []) :
    rowMatchesJan25 c row =
      (dateMatchJan25 c row
        && stateMatchJan25 c.selectedStates c.includesTerritories row.state
        && typeMatchJan25 c.selectedDisasterTypes row.incident_type) := by
  unfold rowMatchesJan25
  cases hs : row.incident_start with
  | none => simp [dateMatchJan25, hs]
  | some t => simp [h, fundingMatchJan25_nil]

/-! ## Claims C1, C2, C3, C5, C7 -/

/-- C1, counterexample: the claim states that with zero funding sources
selected the filter returns the empty list; but on `rowTX` with criteria
selecting no funding sources (and no states or types) the Jan-25 filter
keeps the record. -/
theorem C1_counterexample :
    cEmpty.selectedFundingTypes = [] ∧ filteredDataJan25 cEmpty [rowTX] = [rowTX] := by
  constructor
  · rfl
  · decide

/-- C1, amended: with zero funding sources selected, `fundingMatch` stays
`true`, so the filter returns exactly the records passing the date, region
and type predicates — an empty funding selection imposes no funding
restriction (the download handler separately refuses to export in that
state). -/
theorem C1_empty_funding_no_restriction (c : FilterCriteria)
    (rows : List DisasterData) (h : c.selectedFundingTypes = []) :
    filteredDataJan25 c rows =
      rows.filter fun row =>
        dateMatchJan25 c row
          && stateMatchJan25 c.selectedStates c.includesTerritories row.state
          && typeMatchJan25 c.selectedDisasterTypes row.incident_type := by
  unfold filteredDataJan25
  exact List.filter_congr fun row _ => rowMatchesJan25_empty_funding c row h

/-- C1, witness for the amended theorem at a concrete input. -/
theorem C1_witness :
    filteredDataJan25 cEmpty [rowTX, rowPR] =
      [rowTX, rowPR].filter fun row =>
        dateMatchJan25 cEmpty row
          && stateMatchJan25 cEmpty.selectedStates cEmpty.includesTerritories row.state
          && typeMatchJan25 cEmpty.selectedDisasterTypes row.incident_type :=
  C1_empty_funding_no_restriction cEmpty [rowTX, rowPR] rfl

/-- C2, counterexample: the claim states that with no regions selected and
the include-territories flag off, the region predicate is false on a
territory record; but the code short-circuits an empty selection to `true`
for every record, including the territory `PR`. -/
theorem C2_counterexample :
    "PR" ∈ territories ∧ stateMatchJan25 [] false "PR" = true := by
  decide

/-- C2, amended: with zero selected regions the region predicate is true
for every record — territory or not — regardless of the
include-territories flag. -/
theorem C2_empty_selection_matches_all (includesTerritories : Bool) (st : String) :
    stateMatchJan25 [] includesTerritories st = true := rfl

/-- C3, counterexample: the claim states the funding-field coercion is
non-negative on every number/string/null/undefined input, but a negative
number input passes through unchanged. -/
theorem C3_counterexample :
    normalizeVal (.num (-5)) = -5 ∧ normalizeVal (.num (-5)) < 0 := by
  constructor
  · rfl
  · norm_num [normalizeVal]

/-- Inputs that do not represent a negative quantity: a non-negative
number, a string that parses to a non-negative value or fails to parse,
`null`, or `undefined` (the spec-side restriction the counterexample
forces on C3). -/
def NonNegInput : JSVal → Prop
  | .num q => 0 ≤ q
  | .str s =>
    match parseFloat s with
    | some q => 0 ≤ q
    | none => True
  | .null => True
  | .undef => True

/-- C3, amended: the coercion yields `0` on the empty string, `null` and
`undefined`, and its result is non-negative whenever the input does not
represent a negative number (a negative number, or a string parsing
negative, passes through negative). -/
theorem C3_normalize_nonneg :
    (∀ v, NonNegInput v → 0 ≤ normalizeVal v) ∧
      normalizeVal (.str "") = 0 ∧ normalizeVal .null = 0 ∧
      normalizeVal .undef = 0 := by
  refine ⟨fun v hv => ?_, rfl, rfl, rfl⟩
  cases v with
  | num q => exact hv
  | str s =>
    simp only [normalizeVal]
    simp only [NonNegInput] at hv
    cases h : parseFloat s with
    | none => simp
    | some q => simpa [h] using hv
  | null => exact le_refl 0
  | undef => exact le_refl 0

/-- C3, witness for the amended theorem at concrete inputs. -/
theorem C3_witness : 0 ≤ normalizeVal (.num 3) ∧ 0 ≤ normalizeVal .null :=
  ⟨C3_normalize_nonneg.1 (.num 3) (by norm_num [NonNegInput]),
   C3_normalize_nonneg.1 .null trivial⟩

/-- C5: for every event with an explicit positive `ihp_average_award`, the
fact-sheet statistics report it as the average assistance — whether or not
an applicant count is recorded; and when the applicant count is absent and
the normalized IHP total is positive, the applicant count is
`Math.round(total / award)` — the type-based estimate is never used in
this situation. -/
theorem C5_average_award_priority (e : DisasterData) (same : List DisasterData)
    (a : ℚ) (hav : e.ihp_average_award = some a) (hpos : 0 < a) :
    (eventStats e same).avgAssistance = a ∧
      (e.ihp_applicants = none → 0 < normalizeVal e.ihp_total →
        (eventStats e same).totalApplicants =
          (jsRound (normalizeVal e.ihp_total / a) : ℚ)) := by
  cases happ : e.ihp_applicants with
  | none =>
    simp only [eventStats, happ, hav, optTruthyPos, Option.getD_some,
      decide_eq_true_eq, if_pos hpos]
    by_cases ht : 0 < normalizeVal e.ihp_total
    · simp [ht, hpos]
    · simp [ht]
  | some ap =>
    refine ⟨?_, fun h => by simp at h⟩
    simp only [eventStats, happ, hav, optTruthyPos, Option.getD_some,
      decide_eq_true_eq, if_pos hpos]
    by_cases hc : ap = 0 ∧ 0 < normalizeVal e.ihp_total ∧ 0 < a
    · simp [hc]
    · simp [hc]

/-- The C5 example event: average award 5000, IHP total 500000, no
applicant count. -/
def rowC5 : DisasterData :=
  { emptyRow with
      ihp_total := .num 500000
      ihp_average_award := some 5000 }

/-- An event like `rowC5` but with a recorded applicant count of 200. -/
def rowC5app : DisasterData := { rowC5 with ihp_applicants := some 200 }

/-- C5, witness: the example of the claim — average assistance 5000 and
100 applicants — and the explicit award also wins on an event with a
recorded applicant count. -/
theorem C5_witness :
    (eventStats rowC5 []).avgAssistance = 5000 ∧
      (eventStats rowC5 []).totalApplicants = 100 ∧
      (eventStats rowC5app []).avgAssistance = 5000 := by
  obtain ⟨h1, h2⟩ := C5_average_award_priority rowC5 [] 5000 rfl (by norm_num)
  refine ⟨h1, ?_, (C5_average_award_priority rowC5app [] 5000 rfl (by norm_num)).1⟩
  rw [h2 rfl (by norm_num [normalizeVal, rowC5, emptyRow])]
  norm_num [normalizeVal, rowC5, emptyRow, jsRound]

/-- C7: with at least one funding source selected, a record matches the
Jan-25 filter exactly when it passes the date predicate AND the region
predicate AND the type predicate AND at least one selected funding source
has a positive normalized amount — an OR across the selected sources. -/
theorem C7_funding_or_semantics (c : FilterCriteria) (row : DisasterData)
    (h : c.selectedFundingTypes ≠ []) :
    rowMatchesJan25 c row = true ↔
      dateMatchJan25 c row = true ∧
      stateMatchJan25 c.selectedStates c.includesTerritories row.state = true ∧
      typeMatchJan25 c.selectedDisasterTypes row.incident_type = true ∧
      (("ihp" ∈ c.selectedFundingTypes ∧ 0 < normalizeVal row.ihp_total) ∨
       ("pa" ∈ c.selectedFundingTypes ∧ 0 < normalizeVal row.pa_total) ∨
       ("cdbg_dr_allocation" ∈ c.selectedFundingTypes ∧
         0 < normalizeVal row.cdbg_dr_allocation) ∨
       ("sba_total_approved_loan_amount" ∈ c.selectedFundingTypes ∧
         0 < normalizeVal row.sba_total_approved_loan_amount)) := by
  unfold rowMatchesJan25
  cases hs : row.incident_start with
  | none => simp [dateMatchJan25, hs]
  | some t =>
    rw [Bool.and_eq_true, Bool.and_eq_true, Bool.and_eq_true,
      fundingMatchJan25_iff _ _ h]
    tauto

/-- Criteria selecting only the IHP funding source. -/
def cIhp : FilterCriteria := { cEmpty with selectedFundingTypes := ["ihp"] }

/-- C7, witness: on `rowTX` with only IHP selected, both sides of the
equivalence hold. -/
theorem C7_witness : rowMatchesJan25 cIhp rowTX = true :=
  (C7_funding_or_semantics cIhp rowTX (by decide)).mpr
    ⟨by decide, by decide, by decide,
      Or.inl ⟨by decide, by norm_num [rowTX, emptyRow, normalizeVal]⟩⟩

/-! ## Claim C6 -/

/-- C6: whenever a state has at least one dated event, the annualized
spend is the total funding of its events inside the 10-year lookback
window from "now", divided by exactly 10 — and the reported span is the
fixed 10, never the actual spread of the dates. -/
theorem C6_annualized_fixed_ten (nowY nowM nowD : ℤ) (useSBAData : Bool)
    (stateEvents : List DisasterData)
    (h : ∃ e ∈ stateEvents, e.incident_start ≠ none) :
    (federalSpendStats nowY nowM nowD useSBAData stateEvents).yearsSpan = 10 ∧
      (federalSpendStats nowY nowM nowD useSBAData stateEvents).annualAverage =
        ((stateEvents.filter fun e =>
            match e.incident_start with
            | some t => decide (daysFromCivil (nowY - 10) nowM nowD ≤ t)
            | none => false).map
          fun e => (calculateFunding useSBAData e).total).sum / 10 := by
  obtain ⟨e, he, hne⟩ := h
  have hd : stateEvents.filterMap (fun e => e.incident_start) ≠ [] := by
    intro hnil
    rw [List.filterMap_eq_nil_iff] at hnil
    exact hne (hnil e he)
  unfold federalSpendStats
  cases hl : stateEvents.filterMap fun e => e.incident_start with
  | nil => exact absurd hl hd
  | cons d ds => exact ⟨rfl, rfl⟩

/-- A $10,000,000 IHP event dated 2024-01-01 in Texas. -/
def row10M : DisasterData :=
  { emptyRow with
      state := "TX"
      incident_start := some (daysFromCivil 2024 1 1)
      ihp_total := .num 10000000 }

/-- C6, witness: a single $10,000,000 event yields an annual average of
$1,000,000. -/
theorem C6_witness :
    (federalSpendStats 2025 6 15 false [row10M]).annualAverage = 1000000 := by
  have h := (C6_annualized_fixed_ten 2025 6 15 false [row10M]
    ⟨row10M, List.mem_singleton.mpr rfl, by decide⟩).2
  rw [h]
  have hdec : (daysFromCivil 2015 6 15 : ℤ) ≤ daysFromCivil 2024 1 1 := by decide
  norm_num [row10M, emptyRow, hdec, calculateFunding, normalizeVal]

/-! ## Claim C8 -/

/-- A recent funded Texas event dated 2024-01-01. -/
def recentRow : DisasterData :=
  { emptyRow with
      state := "TX"
      incident_start := some (daysFromCivil 2024 1 1)
      ihp_total := .num 100
      event := "New" }

/-- A funded Texas event with no parseable start date. -/
def noDateRow : DisasterData :=
  { emptyRow with
      state := "TX"
      ihp_total := .num 1000
      event := "Old" }

/-- Eleven Texas events: one inside the lookback window, ten funded
undated ones. -/
def c8Events : List DisasterData := recentRow :: List.replicate 10 noDateRow

/-- Filtering a replicated list keeps everything or nothing. -/
theorem filter_replicate_of_pos {α : Type} (p : α → Bool) (a : α) (hp : p a = true) :
    ∀ n, (List.replicate n a).filter p = List.replicate n a := by
  intro n
  induction n with
  | zero => rfl
  | succ n ih => simp [List.replicate_succ, List.filter_cons, hp, ih]

/-- C8, counterexample: the claim states that when at most 5 events remain
after the lookback-window filtering, the selection returns exactly those
events (the same count); here exactly one event survives the window
filter, yet the backfill step (fewer than 5 funded recent events and more
than 10 events overall) adds ten funded events without dates, and the
chart receives 11 events, not 1. -/
theorem C8_counterexample :
    (majorStormsData 2025 6 15 false c8Events).recentEventsInWindow.length = 1 ∧
      (majorStormsData 2025 6 15 false c8Events).data.length = 11 := by
  have hwin : msRecentInWindow 2025 6 15 false c8Events =
      [{ ev := recentRow, calculatedFunding := calculateFunding false recentRow }] := by
    rfl
  have hpos : (0 : ℚ) < (calculateFunding false noDateRow).total := by
    norm_num [calculateFunding, noDateRow, emptyRow, normalizeVal]
  have hcond : (!msIsRecent (msCutoffDate 2025 6 15 false c8Events)
      { ev := noDateRow, calculatedFunding := calculateFunding false noDateRow }
        && decide (0 < (calculateFunding false noDateRow).total)) = true := by
    rw [decide_eq_true hpos]
    rfl
  have hrecCond : (!msIsRecent (msCutoffDate 2025 6 15 false c8Events)
      { ev := recentRow, calculatedFunding := calculateFunding false recentRow }
        && decide (0 < (calculateFunding false recentRow).total)) = false := by
    have hr : msIsRecent (msCutoffDate 2025 6 15 false c8Events)
        { ev := recentRow, calculatedFunding := calculateFunding false recentRow } = true := by
      decide
    rw [hr]
    rfl
  have hfilterAdd : ((msEventsWithFunding false c8Events).filter fun i =>
      !msIsRecent (msCutoffDate 2025 6 15 false c8Events) i
        && decide (0 < i.calculatedFunding.total)) =
      List.replicate 10 { ev := noDateRow, calculatedFunding := calculateFunding false noDateRow } := by
    show ((recentRow :: List.replicate 10 noDateRow).map _).filter _ = _
    rw [List.map_cons, List.map_replicate, List.filter_cons]
    rw [hrecCond]
    simp only [Bool.false_eq_true, if_false]
    exact filter_replicate_of_pos
      (fun i => !msIsRecent (msCutoffDate 2025 6 15 false c8Events) i
        && decide (0 < i.calculatedFunding.total))
      { ev := noDateRow, calculatedFunding := calculateFunding false noDateRow } hcond 10
  have hlen11 : 10 < c8Events.length := by decide
  have hb : ((msRecentInWindow 2025 6 15 false c8Events).filter
      fun i => decide (0 < i.calculatedFunding.total)).length < 5 ∧
      10 < c8Events.length := by
    refine ⟨?_, hlen11⟩
    rw [hwin]
    exact lt_of_le_of_lt (List.length_filter_le _ _) (by norm_num)
  have hrecents : (msRecentEvents 2025 6 15 false c8Events).length = 11 := by
    simp only [msRecentEvents]
    rw [if_pos hb, hwin, hfilterAdd]
    simp [List.length_insertionSort]
  refine ⟨by decide, ?_⟩
  show ((msTopEvents 2025 6 15 false c8Events).map msChartEntry).length = 11
  rw [List.length_map]
  have hslen : (msSortedEvents 2025 6 15 false c8Events).length = 11 := by
    unfold msSortedEvents
    rw [(List.perm_insertionSort fundingDescRel _).length_eq]
    exact hrecents
  unfold msTopEvents msDisplayCount
  simp only [hslen, List.length_take]
  norm_num

/-- C8, amended: when at most 5 events remain after the lookback-window
filtering AND the backfill step (which can add up to 10 older funded
events when fewer than 5 recent events are funded and the state has more
than 10 events), the selection returns exactly those events — the same
count — sorted descending by total funding. -/
theorem C8_topn_small (nowY nowM nowD : ℤ) (useSBAData : Bool)
    (stateEvents : List DisasterData)
    (h : (majorStormsData nowY nowM nowD useSBAData stateEvents).recentEvents.length ≤ 5) :
    (majorStormsData nowY nowM nowD useSBAData stateEvents).topEvents.Perm
        (majorStormsData nowY nowM nowD useSBAData stateEvents).recentEvents ∧
      List.Sorted fundingDescRel
        (majorStormsData nowY nowM nowD useSBAData stateEvents).topEvents ∧
      (majorStormsData nowY nowM nowD useSBAData stateEvents).data.length =
        (majorStormsData nowY nowM nowD useSBAData stateEvents).recentEvents.length := by
  simp only [majorStormsData] at h ⊢
  have hperm : (msSortedEvents nowY nowM nowD useSBAData stateEvents).Perm
      (msRecentEvents nowY nowM nowD useSBAData stateEvents) :=
    List.perm_insertionSort fundingDescRel _
  have hlen : (msSortedEvents nowY nowM nowD useSBAData stateEvents).length =
      (msRecentEvents nowY nowM nowD useSBAData stateEvents).length :=
    hperm.length_eq
  have hle : (msSortedEvents nowY nowM nowD useSBAData stateEvents).length ≤ 5 := by
    rw [hlen]; exact h
  have hcount : msDisplayCount nowY nowM nowD useSBAData stateEvents =
      (msSortedEvents nowY nowM nowD useSBAData stateEvents).length := by
    unfold msDisplayCount
    rw [if_pos hle]
  have htop : msTopEvents nowY nowM nowD useSBAData stateEvents =
      msSortedEvents nowY nowM nowD useSBAData stateEvents := by
    unfold msTopEvents
    rw [hcount, List.take_length]
  refine ⟨?_, ?_, ?_⟩
  · rw [htop]; exact hperm
  · rw [htop]
    exact List.sorted_insertionSort fundingDescRel _
  · rw [List.length_map, htop, hlen]

/-- Three Texas events with funding 100, 300 and 200, all dated inside the
window. -/
def c8SmallEvents : List DisasterData :=
  [{ recentRow with ihp_total := JSVal.num 100 },
   { recentRow with ihp_total := JSVal.num 300, incident_number := 1 },
   { recentRow with ihp_total := JSVal.num 200, incident_number := 2 }]

/-- C8, witness of the amended theorem: three events with totals
100/300/200 come back in order 300, 200, 100. -/
theorem C8_witness :
    (majorStormsData 2025 6 15 false c8SmallEvents).topEvents.Perm
        (majorStormsData 2025 6 15 false c8SmallEvents).recentEvents ∧
      List.Sorted fundingDescRel
        (majorStormsData 2025 6 15 false c8SmallEvents).topEvents ∧
      (majorStormsData 2025 6 15 false c8SmallEvents).data.map
          (fun e => e.totalFunding) = [300, 200, 100] := by
  have hrec : msRecentEvents 2025 6 15 false c8SmallEvents =
      msRecentInWindow 2025 6 15 false c8SmallEvents := by
    simp only [msRecentEvents]
    rw [if_neg]
    intro hcon
    exact absurd hcon.2 (by decide)
  have hwin : msRecentInWindow 2025 6 15 false c8SmallEvents =
      c8SmallEvents.map (fun r => { ev := r, calculatedFunding := calculateFunding false r }) := by
    rfl
  have hhyp : (majorStormsData 2025 6 15 false c8SmallEvents).recentEvents.length ≤ 5 := by
    show (msRecentEvents 2025 6 15 false c8SmallEvents).length ≤ 5
    rw [hrec, hwin]
    decide
  obtain ⟨h1, h2, _⟩ := C8_topn_small 2025 6 15 false c8SmallEvents hhyp
  refine ⟨h1, h2, ?_⟩
  have hmaps : (majorStormsData 2025 6 15 false c8SmallEvents).data.map (fun e => e.totalFunding) =
      (msTopEvents 2025 6 15 false c8SmallEvents).map (fun i => i.calculatedFunding.total) := by
    show ((msTopEvents 2025 6 15 false c8SmallEvents).map msChartEntry).map _ = _
    rw [List.map_map]
    rfl
  rw [hmaps]
  have hlen3 : (msSortedEvents 2025 6 15 false c8SmallEvents).length = 3 := by
    unfold msSortedEvents
    rw [List.length_insertionSort, hrec, hwin]
    rfl
  have hdc : msDisplayCount 2025 6 15 false c8SmallEvents = 3 := by
    unfold msDisplayCount
    simp only [hlen3]
    norm_num
  unfold msTopEvents
  rw [hdc]
  unfold msSortedEvents
  rw [hrec, hwin]
  norm_num [c8SmallEvents, recentRow, emptyRow, calculateFunding, normalizeVal, fundingDescRel]

/-! ## Claim C9 -/

/-- The keys of an `updateAssoc` result: unchanged when the key exists,
extended by the key otherwise. -/
theorem updateAssoc_fst {α : Type} (m : List (String × α)) (k : String)
    (f : α → α) (init : α) :
    (updateAssoc m k f init).map Prod.fst =
      if m.any fun p => p.1 = k then m.map Prod.fst
      else m.map Prod.fst ++ [k] := by
  unfold updateAssoc
  split
  · rw [List.map_map]
    congr 1
    funext p
    by_cases hp : p.1 = k <;> simp [hp]
  · simp

/-- The recognition test a record must pass to reach the state aggregate:
a truthy state that is a truthy `stateNames` entry. -/
def recognizedState (stateNames : List (String × String)) (r : DisasterData) : Bool :=
  !decide (r.state = "") && truthyLookup stateNames r.state

/-- The state-map component of one aggregation step, as a function of the
state map alone. -/
def stateMapStep (stateNames : List (String × String)) (sel : List String)
    (s : List (String × StateData)) (item : DisasterData) : List (String × StateData) :=
  if recognizedState stateNames item
  then updateAssoc s item.state (bumpState sel item) emptyStateData
  else s

/-- The first component of `getStateDataStep` is `stateMapStep`. -/
theorem getStateDataStep_fst (stateNames : List (String × String)) (sel : List String)
    (acc : List (String × StateData) × List (String × ℚ)) (item : DisasterData) :
    (getStateDataStep stateNames sel acc item).1 = stateMapStep stateNames sel acc.1 item := by
  unfold getStateDataStep stateMapStep recognizedState
  by_cases h1 : item.state = "" <;> by_cases h2 : truthyLookup stateNames item.state <;>
    simp [h1, h2]

/-- The state map of the aggregation fold is the `stateMapStep` fold. -/
theorem foldl_getStateDataStep_fst (stateNames : List (String × String)) (sel : List String) :
    ∀ (fd : List DisasterData) (acc : List (String × StateData) × List (String × ℚ)),
      (fd.foldl (getStateDataStep stateNames sel) acc).1 =
        fd.foldl (stateMapStep stateNames sel) acc.1 := by
  intro fd
  induction fd with
  | nil => intro acc; rfl
  | cons x xs ih =>
    intro acc
    rw [List.foldl_cons, List.foldl_cons, ih, getStateDataStep_fst]

/-- Folding a function that skips non-`p` elements over a `p`-filtered list
is folding it over the whole list. -/
theorem foldl_skip {β γ : Type} (g : γ → β → γ) (p : β → Bool)
    (hg : ∀ c b, p b = false → g c b = c) :
    ∀ (l : List β) (c : γ), (l.filter p).foldl g c = l.foldl g c := by
  intro l
  induction l with
  | nil => intro c; rfl
  | cons x xs ih =>
    intro c
    rw [List.filter_cons]
    by_cases hx : p x = true
    · rw [if_pos hx, List.foldl_cons, List.foldl_cons, ih]
    · have hfx : p x = false := by simpa using hx
      rw [if_neg (by simp [hfx]), List.foldl_cons, hg c x hfx, ih]

/-- Every key produced by the `stateMapStep` fold over records is either a
key of the start map or a truthy `stateNames` entry. -/
theorem stateMapStep_keys (stateNames : List (String × String)) (sel : List String) :
    ∀ (fd : List DisasterData) (s : List (String × StateData)),
      (∀ k ∈ s.map Prod.fst, truthyLookup stateNames k = true) →
      ∀ k ∈ (fd.foldl (stateMapStep stateNames sel) s).map Prod.fst,
        truthyLookup stateNames k = true := by
  intro fd
  induction fd with
  | nil => intro s hs; exact hs
  | cons x xs ih =>
    intro s hs
    rw [List.foldl_cons]
    apply ih
    unfold stateMapStep
    by_cases hx : recognizedState stateNames x = true
    · rw [if_pos hx, updateAssoc_fst]
      have hxs : truthyLookup stateNames x.state = true := by
        unfold recognizedState at hx
        rw [Bool.and_eq_true] at hx
        exact hx.2
      split
      · exact hs
      · intro k hk
        rcases List.mem_append.mp hk with hk | hk
        · exact hs k hk
        · rw [List.mem_singleton.mp hk]
          exact hxs
    · rw [if_neg hx]
      exact hs

/-- C9: the per-state aggregation keys are all truthy `stateNames`
entries, and records with a falsy or unrecognized state never contribute —
aggregating the recognized records alone yields the same map. -/
theorem C9_aggregation_excludes_unrecognized (stateNames : List (String × String))
    (sel : List String) (fd : List DisasterData) :
    (∀ k ∈ (getStateData stateNames sel fd).map Prod.fst,
        truthyLookup stateNames k = true) ∧
      getStateData stateNames sel fd =
        getStateData stateNames sel (fd.filter (recognizedState stateNames)) := by
  constructor
  · unfold getStateData
    rw [foldl_getStateDataStep_fst]
    exact stateMapStep_keys stateNames sel fd [] (by simp)
  · unfold getStateData
    rw [foldl_getStateDataStep_fst, foldl_getStateDataStep_fst]
    refine (foldl_skip (stateMapStep stateNames sel) (recognizedState stateNames) ?_ fd []).symm
    intro c b hb
    unfold stateMapStep
    rw [hb]
    rfl

/-- A one-entry state-name table. -/
def demoStateNames : List (String × String) := [("TX", "Texas")]

/-- C9, witness: with the table recognizing only Texas, the aggregation of
a Texas record, a Puerto Rico record and a blank record produces only keys
the table recognizes — checked at the key `TX`. -/
theorem C9_witness : truthyLookup demoStateNames "TX" = true :=
  (C9_aggregation_excludes_unrecognized demoStateNames ["ihp"]
    [rowTX, rowPR, emptyRow]).1 "TX" (by decide)

/-! ## Claim C4 -/

/-- Membership in the Set-dedup helper. -/
theorem mem_jsSetDedupAux :
    ∀ (l seen : List ℚ) (a : ℚ), a ∈ jsSetDedupAux seen l ↔ a ∈ l ∧ a ∉ seen := by
  intro l
  induction l with
  | nil => intro seen a; simp [jsSetDedupAux]
  | cons x xs ih =>
    intro seen a
    unfold jsSetDedupAux
    by_cases hx : x ∈ seen
    · rw [if_pos hx, ih]
      constructor
      · intro h
        exact ⟨List.mem_cons_of_mem x h.1, h.2⟩
      · rintro ⟨hmem, hs⟩
        rcases List.mem_cons.mp hmem with rfl | h
        · exact absurd hx hs
        · exact ⟨h, hs⟩
    · rw [if_neg hx]
      constructor
      · intro h
        rcases List.mem_cons.mp h with rfl | h
        · exact ⟨List.mem_cons_self _ _, hx⟩
        · obtain ⟨h1, h2⟩ := (ih (x :: seen) a).mp h
          refine ⟨List.mem_cons_of_mem x h1, fun hs => h2 (List.mem_cons_of_mem x hs)⟩
      · rintro ⟨hmem, hs⟩
        rcases List.mem_cons.mp hmem with rfl | h
        · exact List.mem_cons_self _ _
        · by_cases hax : a = x
          · subst hax; exact List.mem_cons_self _ _
          · refine List.mem_cons_of_mem _ ((ih (x :: seen) a).mpr ⟨h, ?_⟩)
            intro hmem2
            rcases List.mem_cons.mp hmem2 with h3 | h3
            · exact hax h3
            · exact hs h3

/-- The Set-dedup helper never repeats an element. -/
theorem nodup_jsSetDedupAux : ∀ (l seen : List ℚ), (jsSetDedupAux seen l).Nodup := by
  intro l
  induction l with
  | nil => intro seen; exact List.nodup_nil
  | cons x xs ih =>
    intro seen
    unfold jsSetDedupAux
    by_cases hx : x ∈ seen
    · rw [if_pos hx]; exact ih seen
    · rw [if_neg hx]
      refine List.Nodup.cons ?_ (ih (x :: seen))
      intro hmem
      exact ((mem_jsSetDedupAux xs (x :: seen) x).mp hmem).2 (List.mem_cons_self _ _)

/-- Membership in `jsSetDedup`. -/
theorem mem_jsSetDedup (l : List ℚ) (a : ℚ) : a ∈ jsSetDedup l ↔ a ∈ l := by
  unfold jsSetDedup
  rw [mem_jsSetDedupAux]
  simp

/-- `uniqueThresholds` keeps exactly the input values. -/
theorem mem_uniqueThresholds (l : List ℚ) (a : ℚ) :
    a ∈ uniqueThresholds l ↔ a ∈ l := by
  unfold uniqueThresholds
  rw [List.mem_insertionSort, mem_jsSetDedup]

/-- `uniqueThresholds` is strictly ascending. -/
theorem sorted_lt_uniqueThresholds (l : List ℚ) :
    (uniqueThresholds l).Sorted (· < ·) := by
  have hnd : (uniqueThresholds l).Nodup :=
    ((List.perm_insertionSort _ _).nodup_iff).mpr (nodup_jsSetDedupAux l [])
  exact (List.sorted_insertionSort _ _).lt_of_le hnd

/-- A sorted list whose minimum is `a` starts with `a`. -/
theorem sorted_lt_head?_eq {l : List ℚ} {a : ℚ} (hs : l.Sorted (· < ·))
    (ha : a ∈ l) (hmin : ∀ x ∈ l, a ≤ x) : l.head? = some a := by
  cases l with
  | nil => cases ha
  | cons b t =>
    rw [List.head?_cons]
    congr 1
    rcases List.mem_cons.mp ha with rfl | hat
    · rfl
    · have hba : b < a := List.rel_of_sorted_cons hs a hat
      have hab : a ≤ b := hmin b (List.mem_cons_self _ _)
      exact absurd hba (not_lt.mpr hab)

/-- A sorted list whose maximum is `a` ends with `a`. -/
theorem sorted_lt_getLast?_eq :
    ∀ {l : List ℚ} {a : ℚ}, l.Sorted (· < ·) → a ∈ l → (∀ x ∈ l, x ≤ a) →
      l.getLast? = some a := by
  intro l
  induction l with
  | nil => intro a _ ha _; cases ha
  | cons b t ih =>
    intro a hs ha hmax
    cases t with
    | nil =>
      rcases List.mem_singleton.mp ha with rfl
      rfl
    | cons c t2 =>
      rw [List.getLast?_cons_cons]
      have hst : (c :: t2).Sorted (· < ·) := hs.of_cons
      have hat : a ∈ c :: t2 := by
        rcases List.mem_cons.mp ha with rfl | hat
        · have hbc : a < c := List.rel_of_sorted_cons hs c (List.mem_cons_self _ _)
          have hca : c ≤ a := hmax c (List.mem_cons_of_mem _ (List.mem_cons_self _ _))
          exact absurd hbc (not_lt.mpr hca)
        · exact hat
      exact ih hst hat fun x hx => hmax x (List.mem_cons_of_mem _ hx)

/-- `a ≤ l.foldl max a`. -/
theorem le_foldl_max : ∀ (l : List ℚ) (a : ℚ), a ≤ l.foldl max a := by
  intro l
  induction l with
  | nil => intro a; exact le_refl a
  | cons x xs ih =>
    intro a
    rw [List.foldl_cons]
    exact le_trans (le_max_left a x) (ih (max a x))

/-- Every list element is bounded by the max fold. -/
theorem mem_le_foldl_max : ∀ (l : List ℚ) (a : ℚ), ∀ x ∈ l, x ≤ l.foldl max a := by
  intro l
  induction l with
  | nil => intro a x hx; cases hx
  | cons y ys ih =>
    intro a x hx
    rw [List.foldl_cons]
    rcases List.mem_cons.mp hx with rfl | hx
    · exact le_trans (le_max_right a x) (le_foldl_max ys (max a x))
    · exact ih (max a y) x hx

/-- The max fold is the seed or a list element. -/
theorem foldl_max_mem : ∀ (l : List ℚ) (a : ℚ), l.foldl max a = a ∨ l.foldl max a ∈ l := by
  intro l
  induction l with
  | nil => intro a; exact Or.inl rfl
  | cons x xs ih =>
    intro a
    rw [List.foldl_cons]
    rcases ih (max a x) with h | h
    · rcases max_cases a x with ⟨hm, _⟩ | ⟨hm, _⟩
      · left; rw [h, hm]
      · right; rw [h, hm]; exact List.mem_cons_self _ _
    · right; exact List.mem_cons_of_mem _ h

/-- Rounding up to a nice number does not decrease a positive value. -/
theorem roundUpNice_ge {t : ℚ} (_ht : 0 < t) : t ≤ roundUpNice t := by
  unfold roundUpNice
  have hm : (0 : ℚ) < (10 : ℚ) ^ Int.log 10 t := zpow_pos (by norm_num) _
  have h1 : t / ((10 : ℚ) ^ Int.log 10 t) ≤ ((⌈t / ((10 : ℚ) ^ Int.log 10 t)⌉ : ℤ) : ℚ) :=
    Int.le_ceil _
  calc t = t / ((10 : ℚ) ^ Int.log 10 t) * ((10 : ℚ) ^ Int.log 10 t) :=
        (div_mul_cancel₀ t hm.ne').symm
    _ ≤ _ := mul_le_mul_of_nonneg_right h1 hm.le

/-- Rounding up to a nice number is bounded by twice a positive value,
since the magnitude `10 ^ ⌊log10 t⌋` is at most `t`. -/
theorem roundUpNice_le_two_mul {t : ℚ} (ht : 0 < t) : roundUpNice t ≤ 2 * t := by
  unfold roundUpNice
  have hm : (0 : ℚ) < (10 : ℚ) ^ Int.log 10 t := zpow_pos (by norm_num) _
  have hmt : (10 : ℚ) ^ Int.log 10 t ≤ t :=
    Int.zpow_log_le_self (by norm_num) ht
  have hc : ((⌈t / ((10 : ℚ) ^ Int.log 10 t)⌉ : ℤ) : ℚ) < t / ((10 : ℚ) ^ Int.log 10 t) + 1 :=
    Int.ceil_lt_add_one _
  have h2 : ((⌈t / ((10 : ℚ) ^ Int.log 10 t)⌉ : ℤ) : ℚ) * ((10 : ℚ) ^ Int.log 10 t) <
      (t / ((10 : ℚ) ^ Int.log 10 t) + 1) * ((10 : ℚ) ^ Int.log 10 t) :=
    (mul_lt_mul_right hm).mpr hc
  rw [add_mul, div_mul_cancel₀ t hm.ne'] at h2
  linarith

/-- A rounded proportional breakpoint stays positive and below the
maximum, for proportion `c` with `2 c ≤ 1`. -/
theorem roundUpNice_bounds {M c : ℚ} (hM : 0 < M) (hc : 0 < c) (hc2 : 2 * c ≤ 1) :
    0 < roundUpNice (M * c) ∧ roundUpNice (M * c) ≤ M := by
  have h1 : 0 < M * c := mul_pos hM hc
  refine ⟨lt_of_lt_of_le h1 (roundUpNice_ge h1), ?_⟩
  have h3 := roundUpNice_le_two_mul h1
  nlinarith

/-- C4: with at least one positively funded aggregate, the dedup-sorted
threshold ladder is strictly ascending, starts at 0 and ends at the
maximum aggregate funding value; with no positive funding it is exactly
the fixed default ladder. -/
theorem C4_thresholds_spec (sd : List (String × StateData)) :
    ((∃ p ∈ sd, 0 < p.2.funding) →
      (uniqueThresholds (calculateDynamicThresholds sd)).Sorted (· < ·) ∧
        (uniqueThresholds (calculateDynamicThresholds sd)).head? = some 0 ∧
        ∃ m, (uniqueThresholds (calculateDynamicThresholds sd)).getLast? = some m ∧
          (∃ p ∈ sd, p.2.funding = m) ∧ ∀ p ∈ sd, p.2.funding ≤ m) ∧
    ((∀ p ∈ sd, p.2.funding ≤ 0) →
      uniqueThresholds (calculateDynamicThresholds sd) = defaultThresholds) := by
  constructor
  · rintro ⟨p0, hp0, hp0pos⟩
    have hmem0 : p0.2.funding ∈ (sd.map fun p => p.2.funding).filter fun f => 0 < f :=
      List.mem_filter.mpr ⟨List.mem_map_of_mem _ hp0, by simpa using hp0pos⟩
    cases hfv : (sd.map fun p => p.2.funding).filter fun f => 0 < f with
    | nil => rw [hfv] at hmem0; cases hmem0
    | cons f fs =>
      rw [hfv] at hmem0
      have hpos_all : ∀ x ∈ f :: fs, 0 < x := by
        intro x hx
        rw [← hfv] at hx
        simpa using (List.mem_filter.mp hx).2
      have hvals : ∀ x ∈ f :: fs, x ∈ sd.map fun p => p.2.funding := by
        intro x hx
        rw [← hfv] at hx
        exact List.mem_of_mem_filter hx
      have hMf : f ≤ fs.foldl max f := le_foldl_max fs f
      have hMpos : 0 < fs.foldl max f :=
        lt_of_lt_of_le (hpos_all f (List.mem_cons_self _ _)) hMf
      have hMmem_list : fs.foldl max f ∈ f :: fs := by
        rcases foldl_max_mem fs f with h | h
        · rw [h]; exact List.mem_cons_self _ _
        · exact List.mem_cons_of_mem _ h
      have hMub : ∀ x ∈ f :: fs, x ≤ fs.foldl max f := by
        intro x hx
        rcases List.mem_cons.mp hx with rfl | hx
        · exact hMf
        · exact mem_le_foldl_max fs f x hx
      have hcalc : calculateDynamicThresholds sd =
          [0, roundUpNice (fs.foldl max f * (1 / 10000)),
           roundUpNice (fs.foldl max f * (1 / 1000)),
           roundUpNice (fs.foldl max f * (1 / 100)),
           roundUpNice (fs.foldl max f * (5 / 100)),
           roundUpNice (fs.foldl max f * (1 / 10)),
           roundUpNice (fs.foldl max f * (25 / 100)),
           roundUpNice (fs.foldl max f * (5 / 10)), fs.foldl max f] := by
        unfold calculateDynamicThresholds
        rw [hfv]
      have hL : ∀ x ∈ calculateDynamicThresholds sd, 0 ≤ x ∧ x ≤ fs.foldl max f := by
        rw [hcalc]
        intro x hx
        simp only [List.mem_cons, List.not_mem_nil, or_false] at hx
        rcases hx with rfl | rfl | rfl | rfl | rfl | rfl | rfl | rfl | rfl
        · exact ⟨le_refl 0, hMpos.le⟩
        · have h := roundUpNice_bounds hMpos (c := 1 / 10000) (by norm_num) (by norm_num)
          exact ⟨h.1.le, h.2⟩
        · have h := roundUpNice_bounds hMpos (c := 1 / 1000) (by norm_num) (by norm_num)
          exact ⟨h.1.le, h.2⟩
        · have h := roundUpNice_bounds hMpos (c := 1 / 100) (by norm_num) (by norm_num)
          exact ⟨h.1.le, h.2⟩
        · have h := roundUpNice_bounds hMpos (c := 5 / 100) (by norm_num) (by norm_num)
          exact ⟨h.1.le, h.2⟩
        · have h := roundUpNice_bounds hMpos (c := 1 / 10) (by norm_num) (by norm_num)
          exact ⟨h.1.le, h.2⟩
        · have h := roundUpNice_bounds hMpos (c := 25 / 100) (by norm_num) (by norm_num)
          exact ⟨h.1.le, h.2⟩
        · have h := roundUpNice_bounds hMpos (c := 5 / 10) (by norm_num) (by norm_num)
          exact ⟨h.1.le, h.2⟩
        · exact ⟨hMpos.le, le_refl _⟩
      have h0mem : (0 : ℚ) ∈ calculateDynamicThresholds sd := by
        rw [hcalc]
        exact List.mem_cons_self _ _
      have hMmem : fs.foldl max f ∈ calculateDynamicThresholds sd := by
        rw [hcalc]
        simp
      refine ⟨sorted_lt_uniqueThresholds _, ?_, ⟨fs.foldl max f, ?_, ?_, ?_⟩⟩
      · exact sorted_lt_head?_eq (sorted_lt_uniqueThresholds _)
          ((mem_uniqueThresholds _ _).mpr h0mem)
          fun x hx => (hL x ((mem_uniqueThresholds _ _).mp hx)).1
      · exact sorted_lt_getLast?_eq (sorted_lt_uniqueThresholds _)
          ((mem_uniqueThresholds _ _).mpr hMmem)
          fun x hx => (hL x ((mem_uniqueThresholds _ _).mp hx)).2
      · obtain ⟨p, hp, hpe⟩ := List.mem_map.mp (hvals _ hMmem_list)
        exact ⟨p, hp, hpe⟩
      · intro p hp
        by_cases hpp : 0 < p.2.funding
        · apply hMub
          rw [← hfv]
          exact List.mem_filter.mpr ⟨List.mem_map_of_mem _ hp, by simpa using hpp⟩
        · exact le_trans (not_lt.mp hpp) hMpos.le
  · intro hall
    have hfv : (sd.map fun p => p.2.funding).filter (fun f => 0 < f) = [] := by
      rw [List.filter_eq_nil_iff]
      intro a ha
      obtain ⟨p, hp, rfl⟩ := List.mem_map.mp ha
      simpa using not_lt.mpr (hall p hp)
    have hcalc : calculateDynamicThresholds sd = defaultThresholds := by
      unfold calculateDynamicThresholds
      rw [hfv]
    rw [hcalc]
    decide

/-- A two-state aggregate set with one positively funded state. -/
def demoStateData : List (String × StateData) :=
  [("TX", { emptyStateData with funding := 1000000 }), ("CA", emptyStateData)]

/-- C4, witness: with a positive aggregate the ladder starts at 0; with no
positive aggregate it is the default ladder. -/
theorem C4_witness :
    (uniqueThresholds (calculateDynamicThresholds demoStateData)).head? = some 0 ∧
      uniqueThresholds (calculateDynamicThresholds [("CA", emptyStateData)]) =
        defaultThresholds := by
  constructor
  · exact ((C4_thresholds_spec demoStateData).1
      ⟨("TX", { emptyStateData with funding := 1000000 }),
        by simp [demoStateData], by norm_num⟩).2.1
  · refine (C4_thresholds_spec [("CA", emptyStateData)]).2 ?_
    intro p hp
    rcases List.mem_singleton.mp hp with rfl
    norm_num [emptyStateData]

/-! ## Claim C10 -/

/-- The amount-only view of one `addRecipientSlot` accumulator entry. -/
def amountsOf (m : List (String × ℚ × List String)) : List (String × ℚ) :=
  m.map fun p => (p.1, p.2.1)

/-- Insert-or-add on an amount association list: bump an existing entry or
append a new one. -/
def insAdd (m : List (String × ℚ)) (n : String) (q : ℚ) : List (String × ℚ) :=
  if m.any fun p => p.1 = n then m.map fun p => if p.1 = n then (p.1, p.2 + q) else p
  else m ++ [(n, q)]

/-- The contribution one grantee slot makes, if any: the trimmed name and
the amount, under the guard of `addRecipientsFromFRN`
(`FactSheetDisplay.tsx` line 913). -/
def slotContrib : Option String × Option ℚ → Option (String × ℚ)
  | (some name, some amount) =>
    if name ≠ "" ∧ amount ≠ 0 ∧ 0 < amount then some (name.trim, amount) else none
  | _ => none

/-- All grantee contributions of an event across the four FRN tranches, in
processing order. -/
def granteeContribs (e : DisasterData) : List (String × ℚ) :=
  e.frn1_grantees.filterMap slotContrib ++ e.frn2_grantees.filterMap slotContrib ++
    e.frn3_grantees.filterMap slotContrib ++ e.frn4_grantees.filterMap slotContrib

/-- The total contributed under one name. -/
def contribSum (cs : List (String × ℚ)) (n : String) : ℚ :=
  ((cs.filter fun c => c.1 = n).map Prod.snd).sum

/-- Every grantee contribution is positive. -/
theorem granteeContribs_pos (e : DisasterData) :
    ∀ c ∈ granteeContribs e, 0 < c.2 := by
  have h : ∀ (slots : List (Option String × Option ℚ)),
      ∀ c ∈ slots.filterMap slotContrib, 0 < c.2 := by
    intro slots c hc
    obtain ⟨s, _, hs⟩ := List.mem_filterMap.mp hc
    rcases s with ⟨sn, sa⟩
    rcases sn with _ | n <;> rcases sa with _ | a <;> simp [slotContrib] at hs
    obtain ⟨⟨_, _, hpos⟩, rfl⟩ := hs
    exact hpos
  intro c hc
  rcases List.mem_append.mp hc with hc | hc
  · rcases List.mem_append.mp hc with hc | hc
    · rcases List.mem_append.mp hc with hc | hc
      · exact h _ c hc
      · exact h _ c hc
    · exact h _ c hc
  · exact h _ c hc

/-- Keys of `insAdd`: unchanged when the key exists, extended otherwise. -/
theorem insAdd_fst (m : List (String × ℚ)) (n : String) (q : ℚ) :
    (insAdd m n q).map Prod.fst =
      if m.any fun p => p.1 = n then m.map Prod.fst else m.map Prod.fst ++ [n] := by
  unfold insAdd
  split
  · rw [List.map_map]
    congr 1
    funext p
    by_cases hp : p.1 = n <;> simp [hp]
  · simp

/-- `contribSum` distributes over list append. -/
theorem contribSum_append (cs ds : List (String × ℚ)) (n : String) :
    contribSum (cs ++ ds) n = contribSum cs n + contribSum ds n := by
  unfold contribSum
  rw [List.filter_append, List.map_append, List.sum_append]

/-- `contribSum` of a single contribution. -/
theorem contribSum_single (c : String × ℚ) (n : String) :
    contribSum [c] n = if c.1 = n then c.2 else 0 := by
  unfold contribSum
  by_cases hc : c.1 = n <;> simp [List.filter_cons, hc]

/-- Names that never occur contribute nothing. -/
theorem contribSum_eq_zero {cs : List (String × ℚ)} {n : String}
    (h : ∀ c ∈ cs, c.1 ≠ n) : contribSum cs n = 0 := by
  unfold contribSum
  rw [List.filter_eq_nil_iff.mpr]
  · rfl
  · intro c hc
    simpa using h c hc

/-- Key membership for `insAdd`. -/
theorem mem_fst_insAdd {m : List (String × ℚ)} {n x : String} {q : ℚ} :
    x ∈ (insAdd m n q).map Prod.fst ↔ x ∈ m.map Prod.fst ∨ x = n := by
  rw [insAdd_fst]
  split
  next h =>
    constructor
    · exact Or.inl
    · rintro (hx | rfl)
      · exact hx
      · simp only [List.any_eq_true, decide_eq_true_eq] at h
        obtain ⟨p, hp, hpn⟩ := h
        exact List.mem_map.mpr ⟨p, hp, hpn⟩
  next h => simp [List.mem_append]

/-- `insAdd` preserves distinctness of keys. -/
theorem insAdd_fst_nodup {m : List (String × ℚ)} (h : (m.map Prod.fst).Nodup)
    (n : String) (q : ℚ) : ((insAdd m n q).map Prod.fst).Nodup := by
  rw [insAdd_fst]
  split
  next => exact h
  next hany =>
    rw [List.nodup_append]
    refine ⟨h, List.nodup_singleton n, ?_⟩
    intro x hx hxn
    rw [List.mem_singleton.mp hxn] at hx
    obtain ⟨p, hp, hpn⟩ := List.mem_map.mp hx
    exact hany (List.any_eq_true.mpr ⟨p, hp, by simpa using hpn⟩)

/-- The amount view of one slot step is `insAdd` of the slot
contribution. -/
theorem amountsOf_addRecipientSlot (fd : Option String)
    (m : List (String × ℚ × List String)) (slot : Option String × Option ℚ) :
    amountsOf (addRecipientSlot fd m slot) =
      match slotContrib slot with
      | some c => insAdd (amountsOf m) c.1 c.2
      | none => amountsOf m := by
  rcases slot with ⟨sn, sa⟩
  rcases sn with _ | name
  · rfl
  · rcases sa with _ | amount
    · rfl
    · show amountsOf (addRecipientSlot fd m (some name, some amount)) = _
      simp only [addRecipientSlot, slotContrib]
      by_cases hguard : name ≠ "" ∧ amount ≠ 0 ∧ 0 < amount
      · rw [if_pos hguard, if_pos hguard]
        show amountsOf (if m.any fun p => p.1 = name.trim then _ else _) = insAdd (amountsOf m) name.trim amount
        unfold insAdd amountsOf
        have hany : ((m.map fun p => (p.1, p.2.1)).any fun p => p.1 = name.trim) =
            (m.any fun p => p.1 = name.trim) := by
          induction m with
          | nil => rfl
          | cons x xs ih => simp [List.any_cons, ih]
        by_cases hm : (m.any fun p => p.1 = name.trim) = true
        · rw [if_pos hm, if_pos (by rw [hany]; exact hm)]
          rw [List.map_map, List.map_map]
          congr 1
          funext p
          by_cases hp : p.1 = name.trim <;> simp [hp]
        · rw [if_neg hm, if_neg (by rw [hany]; exact hm)]
          rw [List.map_append]
          rfl
      · rw [if_neg hguard, if_neg hguard]

/-- The amount view of a tranche fold is the `insAdd` fold of its slot
contributions. -/
theorem amountsOf_foldl (fd : Option String) :
    ∀ (slots : List (Option String × Option ℚ)) (m : List (String × ℚ × List String)),
      amountsOf (slots.foldl (addRecipientSlot fd) m) =
        (slots.filterMap slotContrib).foldl (fun a c => insAdd a c.1 c.2) (amountsOf m) := by
  intro slots
  induction slots with
  | nil => intro m; rfl
  | cons s ss ih =>
    intro m
    rw [List.foldl_cons, ih, List.filterMap_cons]
    cases hsc : slotContrib s with
    | none =>
      rw [amountsOf_addRecipientSlot, hsc]
    | some c =>
      rw [List.foldl_cons, amountsOf_addRecipientSlot, hsc]

/-- The `insAdd` fold of a contribution list, started empty, yields a map
with distinct keys whose entries are exactly the per-name contribution
sums, one entry per contributed name. -/
theorem foldl_insAdd_spec (cs : List (String × ℚ)) :
    ((cs.foldl (fun a c => insAdd a c.1 c.2) []).map Prod.fst).Nodup ∧
      (∀ p ∈ cs.foldl (fun a c => insAdd a c.1 c.2) [], p.2 = contribSum cs p.1) ∧
      (∀ p ∈ cs.foldl (fun a c => insAdd a c.1 c.2) [], ∃ c ∈ cs, c.1 = p.1) ∧
      ∀ c ∈ cs, ∃ p ∈ cs.foldl (fun a c => insAdd a c.1 c.2) [], p.1 = c.1 := by
  induction cs using List.reverseRecOn with
  | nil => exact ⟨List.nodup_nil, by simp, by simp, by simp⟩
  | append_singleton cs c ih =>
    obtain ⟨ihnd, ihval, ihkeys, ihall⟩ := ih
    have hfold : (cs ++ [c]).foldl (fun a c => insAdd a c.1 c.2) [] =
        insAdd (cs.foldl (fun a c => insAdd a c.1 c.2) []) c.1 c.2 := by
      rw [List.foldl_append, List.foldl_cons, List.foldl_nil]
    rw [hfold]
    refine ⟨insAdd_fst_nodup ihnd c.1 c.2, ?_, ?_, ?_⟩
    · intro p hp
      unfold insAdd at hp
      split at hp
      next hany =>
        obtain ⟨p0, hp0, hpe⟩ := List.mem_map.mp hp
        by_cases hp0c : p0.1 = c.1
        · rw [if_pos hp0c] at hpe
          rw [← hpe]
          show p0.2 + c.2 = contribSum (cs ++ [c]) p0.1
          rw [contribSum_append, contribSum_single, ihval p0 hp0,
            if_pos hp0c.symm]
        · rw [if_neg hp0c] at hpe
          rw [← hpe]
          rw [contribSum_append, contribSum_single,
            if_neg (fun h => hp0c h.symm), add_zero]
          exact ihval p0 hp0
      next hany =>
        rcases List.mem_append.mp hp with hp | hp
        · have hpne : p.1 ≠ c.1 := by
            intro hpc
            exact hany (List.any_eq_true.mpr ⟨p, hp, by simpa using hpc⟩)
          rw [contribSum_append, contribSum_single,
            if_neg (fun h => hpne h.symm), add_zero]
          exact ihval p hp
        · rw [List.mem_singleton.mp hp]
          show c.2 = contribSum (cs ++ [c]) c.1
          rw [contribSum_append, contribSum_single, if_pos rfl]
          have hzero : contribSum cs c.1 = 0 := by
            apply contribSum_eq_zero
            intro c' hc' hc'c
            obtain ⟨p, hp, hpc⟩ := ihall c' hc'
            exact hany (List.any_eq_true.mpr ⟨p, hp, by simp [hpc, hc'c]⟩)
          rw [hzero, zero_add]
    · intro p hp
      have hk : p.1 ∈ (insAdd (cs.foldl (fun a c => insAdd a c.1 c.2) []) c.1 c.2).map Prod.fst :=
        List.mem_map.mpr ⟨p, hp, rfl⟩
      rcases mem_fst_insAdd.mp hk with hk | hk
      · obtain ⟨p0, hp0, hp0e⟩ := List.mem_map.mp hk
        obtain ⟨c', hc', hc'e⟩ := ihkeys p0 hp0
        exact ⟨c', List.mem_append_left _ hc', by rw [hc'e, hp0e]⟩
      · exact ⟨c, List.mem_append_right _ (List.mem_singleton.mpr rfl), hk.symm⟩
    · intro c' hc'
      have hkey : c'.1 ∈ (insAdd (cs.foldl (fun a c => insAdd a c.1 c.2) []) c.1 c.2).map Prod.fst := by
        rcases List.mem_append.mp hc' with hc' | hc'
        · obtain ⟨p, hp, hpe⟩ := ihall c' hc'
          exact mem_fst_insAdd.mpr (Or.inl (List.mem_map.mpr ⟨p, hp, hpe⟩))
        · rw [List.mem_singleton.mp hc']
          exact mem_fst_insAdd.mpr (Or.inr rfl)
      obtain ⟨p, hp, hpe⟩ := List.mem_map.mp hkey
      exact ⟨p, hp, hpe⟩

/-- C10: the CDBG-DR recipient extraction yields one entry per distinct
trimmed grantee name, each totalling that grantee's positive contributions
across the four tranches; every total is positive and the list is sorted
descending by total amount. -/
theorem C10_cdbg_recipients_spec (dateValue : String → ℤ) (e : DisasterData) :
    ((getCDBGRecipients dateValue e).map fun r => r.name).Nodup ∧
      (∀ r ∈ getCDBGRecipients dateValue e,
        r.totalAmount = contribSum (granteeContribs e) r.name ∧ 0 < r.totalAmount) ∧
      (∀ c ∈ granteeContribs e, ∃ r ∈ getCDBGRecipients dateValue e, r.name = c.1) ∧
      List.Sorted amountDescRel (getCDBGRecipients dateValue e) := by
  have hamounts : amountsOf (cdbgMap e) =
      (granteeContribs e).foldl (fun a c => insAdd a c.1 c.2) [] := by
    simp only [cdbgMap, granteeContribs]
    rw [amountsOf_foldl, amountsOf_foldl, amountsOf_foldl, amountsOf_foldl,
      List.foldl_append, List.foldl_append, List.foldl_append]
    rfl
  obtain ⟨hnd, hval, hkeys, hall⟩ := foldl_insAdd_spec (granteeContribs e)
  rw [← hamounts] at hnd hval hkeys hall
  have hper : (getCDBGRecipients dateValue e).Perm
      ((cdbgMap e).map (cdbgToRecipient dateValue)) :=
    List.perm_insertionSort _ _
  refine ⟨?_, ?_, ?_, ?_⟩
  · rw [List.Perm.nodup_iff (List.Perm.map _ hper)]
    have hnames : (((cdbgMap e).map (cdbgToRecipient dateValue)).map fun r => r.name) =
        (amountsOf (cdbgMap e)).map Prod.fst := by
      unfold amountsOf cdbgToRecipient
      rw [List.map_map, List.map_map]
      rfl
    rw [hnames]
    exact hnd
  · intro r hr
    have hr' := (List.Perm.mem_iff hper).mp hr
    obtain ⟨p, hp, rfl⟩ := List.mem_map.mp hr'
    have hpam : (p.1, p.2.1) ∈ amountsOf (cdbgMap e) := List.mem_map.mpr ⟨p, hp, rfl⟩
    have hv := hval _ hpam
    refine ⟨hv, ?_⟩
    obtain ⟨c, hc, hce⟩ := hkeys _ hpam
    have hv' : p.2.1 = contribSum (granteeContribs e) p.1 := hv
    show (0 : ℚ) < p.2.1
    rw [hv']
    unfold contribSum
    apply List.sum_pos
    · intro x hx
      obtain ⟨c', hc', rfl⟩ := List.mem_map.mp hx
      exact granteeContribs_pos e c' (List.mem_of_mem_filter hc')
    · have hmem : c ∈ (granteeContribs e).filter fun c' => c'.1 = (p.1, p.2.1).1 :=
        List.mem_filter.mpr ⟨hc, by simpa using hce⟩
      intro hnil
      rw [List.map_eq_nil_iff] at hnil
      rw [hnil] at hmem
      cases hmem
  · intro c hc
    obtain ⟨q, hq, hqe⟩ := hall c hc
    obtain ⟨p, hp, hpe⟩ := List.mem_map.mp hq
    refine ⟨cdbgToRecipient dateValue p,
      (List.Perm.mem_iff hper).mpr (List.mem_map.mpr ⟨p, hp, rfl⟩), ?_⟩
    show p.1 = c.1
    have hq1 : (p.1, p.2.1).1 = q.1 := congrArg Prod.fst hpe
    rw [← hqe, ← hq1]
  · exact List.sorted_insertionSort _ _

/-- A record with two CDBG-DR grantees in the first tranche and one in the
second. -/
def rowCDBG : DisasterData :=
  { emptyRow with
      frn1_date := some "2020-01-01"
      frn1_grantees := [(some "CityA", some 50), (some "CityB", some 30)]
      frn2_grantees := [(some "CityC", some 10)] }

/-- C10, witness: the extraction of `rowCDBG` produces an entry carrying
the trimmed name of the first grantee. -/
theorem C10_witness :
    ∃ r ∈ getCDBGRecipients (fun _ => 0) rowCDBG, r.name = "CityA".trim := by
  have hcontribs : granteeContribs rowCDBG =
      [("CityA".trim, 50), ("CityB".trim, 30), ("CityC".trim, 10)] := rfl
  have h := (C10_cdbg_recipients_spec (fun _ => 0) rowCDBG).2.2.1
    ("CityA".trim, 50) (by rw [hcontribs]; exact List.mem_cons_self _ _)
  simpa using h
